import Mathlib

/-!
Verification of the Plan-Execute-Recover engine of the ai-agent-engine
repository.  Python sources are shallowly embedded: dict-like payloads
become `JVal` association lists, fallible code returns `Except`, the
stateful recovery loop becomes explicit state passing driven by oracles
for the external collaborators (tools, replanner, quota), and the two
unbounded recursions of the source (the recovery `while True` loop and
the cycle-detection DFS) take an explicit fuel argument together with
sufficiency lemmas.
-/

namespace AgentEngine

/-! ## JSON-like values (Python dict / list payloads) -/

/-- A JSON-like value, modelling the untyped Python payloads that flow
through `tool_args`, tool responses and stored step outputs. -/
inductive JVal where
  | null
  | bool (b : Bool)
  | num (n : Int)
  | str (s : String)
  | arr (xs : List JVal)
  | obj (fields : List (String × JVal))

/-- Lookup of a key in a dict modelled as an association list
(first binding wins, as Python dicts have unique keys). -/
def lookupKey (fields : List (String × JVal)) (k : String) : Option JVal :=
  match fields with
  | [] => none
  | (k', v) :: rest => if k' = k then some v else lookupKey rest k

/-- Dict assignment `d[k] = v`: replaces the binding if the key is
present, otherwise appends it (Python insertion order). -/
def setKey (fields : List (String × JVal)) (k : String) (v : JVal) :
    List (String × JVal) :=
  match fields with
  | [] => [(k, v)]
  | (k', v') :: rest =>
      if k' = k then (k, v) :: rest else (k', v') :: setKey rest k v

/-- Membership test `k in d` for a dict. -/
def hasKey (fields : List (String × JVal)) (k : String) : Bool :=
  (lookupKey fields k).isSome

/-- Python truthiness of an optional payload value (`if not x` tests):
a missing key, `None`, `0`, `False`, `""`, `[]` and `{}` are falsy. -/
def pyTruthy (v : Option JVal) : Bool :=
  match v with
  | none => false
  | some .null => false
  | some (.bool b) => b
  | some (.num n) => n ≠ 0
  | some (.str s) => s ≠ ""
  | some (.arr xs) => ¬ xs.isEmpty
  | some (.obj fs) => ¬ fs.isEmpty

/-- Python test `x is None` after a `dict.get(k)`: true when the key is
missing or bound to `None`. -/
def pyIsNone (v : Option JVal) : Bool :=
  match v with
  | none => true
  | some .null => true
  | _ => false

/-! ## Data model (tools/schemas.py) -/

/-- Fail reason of an impossible plan; pydantic restricts the field to
these three literals (`PlannerOutput.fail_reason`). -/
inductive FailReason where
  | scope_mismatch
  | safety_violation
  | logic_gap
deriving DecidableEq

/-- One entry of `step.metadata["dependencies"]`: the declaration that
an argument of this step is filled from an earlier step's output. -/
structure Dependency where
  from_step : Int
  from_field : String
  to_arg : String

/-- A single plan step (`tools/schemas.py`, class `Step`).  `tool_args`
is the argument dict; the dependency list models the
`metadata["dependencies"]` entry consumed by the executor and the
validator (other metadata keys are never read by the engine). -/
structure Step where
  step_id : Int
  instruction : String
  tool_name : String
  tool_args : List (String × JVal)
  dependencies : List Dependency

/-- A plan (`tools/schemas.py`, class `PlannerOutput`).  `plan_status`
is kept as a string because `_validate_schema` re-checks its value. -/
structure PlannerOutput where
  goal : String
  plan_status : String
  steps : List Step
  fail_reason : Option FailReason

/-- Response dict returned by `app/runner.run_tool`: always carries a
`success` flag, an optional `data` payload and an optional `error`
message (`tools/responses.tool_response`).  `run_tool` catches every
handler fault, so it is modelled as a total function. -/
structure ToolResponse where
  success : Bool
  data : Option JVal
  error : Option String

/-- Per-step record appended to `step_results` by the executor
(`core/executor._execute_single_step`); wall-clock duration is dropped
from the model. -/
structure StepRecord where
  step_id : Int
  tool_name : String
  success : Bool
  data : ToolResponse

/-- The metadata dict of an `ExecutionResult`; exactly the keys written
by `core/executor.py`, with wall-clock timings dropped. -/
structure ExecMetadata where
  failed_step_id : Option Int := none
  failed_tool : Option String := none
  error : Option String := none
  error_type : Option String := none
  reason : Option String := none

/-- Result of one executor run (`tools/schemas.py`,
class `ExecutionResult`). -/
structure ExecutionResult where
  execution_status : String
  step_results : List StepRecord
  executed_steps : Nat
  metadata : ExecMetadata

/-! ## Failure classifier (core/failure_classifier.py) -/

/-- Failure categories driving the recovery strategy. -/
inductive FailureType where
  | transient
  | structural
  | terminal
deriving DecidableEq

/-- Substring test over character lists, mirroring Python's
`needle in hay` for non-empty needles. -/
def charsContain (hay needle : List Char) : Bool :=
  match hay with
  | [] => needle.isEmpty
  | _ :: t => needle.isPrefixOf hay || charsContain t needle

/-- Python `needle in hay` on strings. -/
def strContains (hay needle : String) : Bool :=
  charsContain hay.data needle.data

/-- Python `s.lower()`; the engine's messages and queries are ASCII,
where `Char.toLower` agrees with Python. -/
def strToLower (s : String) : String :=
  ⟨s.data.map Char.toLower⟩

/-- Python `s.strip()`: leading and trailing whitespace removed. -/
def strStrip (s : String) : String :=
  ⟨((s.data.dropWhile Char.isWhitespace).reverse.dropWhile
      Char.isWhitespace).reverse⟩

/-- Python `s.split(".", 1)[0]`: the prefix before the first dot (the
whole string when there is none). -/
def rootBeforeDot (s : String) : String :=
  ⟨s.data.takeWhile (fun c => c ≠ '.')⟩

def transient_indicators : List String :=
  ["timeout", "timed out", "connection error", "network error",
   "rate limit", "temporarily unavailable", "service unavailable",
   "502", "503", "504", "connection reset", "connection refused"]

def structural_indicators : List String :=
  ["validation error", "schema error", "type error", "dependency error",
   "input should be", "invalid argument", "cannot be parsed",
   "tool not applicable", "wrong tool", "missing required field",
   "unexpected value", "does not match", "field required"]

def terminal_indicators : List String :=
  ["impossible", "unsupported", "not supported", "cannot be done",
   "not allowed", "permission denied", "access denied",
   "authentication failed", "unauthorized", "forbidden"]

/-- Case-insensitive match of an error message against one keyword
set: the `any(indicator in e for indicator in ...)` tests of
`classify_failure` over the lowercased message. -/
def matchesAny (indicators : List String) (error : String) : Bool :=
  indicators.any (fun ind => strContains (strToLower error) ind)

/-- Embedding of `classify_failure`: pure, case-insensitive substring
match against the three keyword sets in priority order, defaulting to
STRUCTURAL.  The `tool_name` argument exists in the source signature
but is never consulted. -/
def classify_failure (error : String) (_tool_name : Option String := none) :
    FailureType :=
  if error = "" then .structural
  else if matchesAny transient_indicators error then .transient
  else if matchesAny structural_indicators error then .structural
  else if matchesAny terminal_indicators error then .terminal
  else .structural

/-! ## Dependency state (core/state.py) -/

/-- The `DependencyState` map `step_id -> stored tool response`,
modelled as an association list standing for the Python dict
`self._state`. -/
structure DependencyState where
  state : List (Int × ToolResponse)

def DependencyState.empty : DependencyState := ⟨[]⟩

/-- Dict lookup in an association list keyed by step id. -/
def findEntry (entries : List (Int × ToolResponse)) (step_id : Int) :
    Option ToolResponse :=
  match entries with
  | [] => none
  | (k, v) :: rest => if k = step_id then some v else findEntry rest step_id

/-- Dict lookup in the state. -/
def DependencyState.find (s : DependencyState) (step_id : Int) :
    Option ToolResponse :=
  findEntry s.state step_id

/-- Dict assignment on the underlying association list: replace the
binding if the key is present, else append. -/
def storeEntry (entries : List (Int × ToolResponse)) (step_id : Int)
    (output : ToolResponse) : List (Int × ToolResponse) :=
  match entries with
  | [] => [(step_id, output)]
  | (k, v) :: rest =>
      if k = step_id then (step_id, output) :: rest
      else (k, v) :: storeEntry rest step_id output

/-- Embedding of `DependencyState.store`: plain dict assignment
`self._state[step_id] = output` (replace if present, else append). -/
def DependencyState.store (s : DependencyState) (step_id : Int)
    (output : ToolResponse) : DependencyState :=
  ⟨storeEntry s.state step_id output⟩

/-- Embedding of `DependencyState.has_step`. -/
def DependencyState.has_step (s : DependencyState) (step_id : Int) : Bool :=
  (s.find step_id).isSome

/-- Embedding of `DependencyState.get_step_output`. -/
def DependencyState.get_step_output (s : DependencyState) (step_id : Int) :
    Option ToolResponse :=
  s.find step_id

/-- Check `"value" in step_output["data"]` performed by
`resolve_dependencies` on the stored payload. -/
def dataHasValue (d : JVal) : Bool :=
  match d with
  | .obj fields => hasKey fields "value"
  | _ => false

/-- Lookup of `step_output["data"]["value"]`. -/
def dataValue (d : JVal) : Option JVal :=
  match d with
  | .obj fields => lookupKey fields "value"
  | _ => none

/-- Embedding of `DependencyState.resolve_dependencies`: copies
`tool_args` and, for each dependency, injects the stored
`data.value` of `from_step` under `to_arg`, failing with the KeyError
message when the step is missing from the state or the stored output
lacks the nested field. -/
def DependencyState.resolve_dependencies (s : DependencyState)
    (tool_args : List (String × JVal)) (dependencies : List Dependency) :
    Except String (List (String × JVal)) :=
  match dependencies with
  | [] => .ok tool_args
  | dep :: rest =>
      match s.find dep.from_step with
      | none =>
          .error s!"Step {dep.from_step} not executed or not found in state"
      | some step_output =>
          match step_output.data with
          | none => .error s!"Step {dep.from_step} output missing 'data' field"
          | some d =>
              match dataValue d with
              | some v =>
                  s.resolve_dependencies (setKey tool_args dep.to_arg v) rest
              | none =>
                  .error s!"Step {dep.from_step} output missing 'data.value' field"

/-! ## Executor (core/executor.py)

The tool layer (`app/runner.run_tool`) is an external collaborator: it
validates input, enforces timeouts and catches every handler fault,
always returning a response dict with a `success` flag.  It is
therefore modelled as a total oracle `runTool`.  The executor is
instrumented to also return its final dependency state and the trace
of tool invocations it performed, which are local in the source. -/

/-- One tool invocation performed by the executor. -/
structure ToolCall where
  tool_name : String
  tool_args : List (String × JVal)

/-- How a run of the step loop ended early, if it did:
a tool-declared failure at `failed_step`, or a raised
`DependencyResolutionError` with its message. -/
inductive StepFailure where
  | toolFailure (failed_step : Step) (error : Option String)
  | resolution (msg : String)

/-- Embedding of `_execute_single_step`: resolve dependencies against
the state (a `KeyError` becomes a `DependencyResolutionError`), then
invoke the tool with the resolved arguments.  Returns the per-step
record together with the tool call that was made. -/
def execute_single_step (runTool : String → List (String × JVal) → ToolResponse)
    (s : DependencyState) (step : Step) :
    Except String (StepRecord × ToolCall) :=
  match (if step.dependencies.isEmpty then .ok step.tool_args
         else s.resolve_dependencies step.tool_args step.dependencies :
         Except String (List (String × JVal))) with
  | .error e => .error s!"Step {step.step_id}: Failed to resolve dependency - {e}"
  | .ok resolved_args =>
      let tool_result := runTool step.tool_name resolved_args
      .ok ({ step_id := step.step_id, tool_name := step.tool_name,
             success := tool_result.success, data := tool_result },
           { tool_name := step.tool_name, tool_args := resolved_args })

/-- The step loop of `execute_plan`: run steps in order, append each
record, stop at the first failing step; a step's result is stored in
the dependency state after the success check.  Returns the records in
order, the final state, the tool-call trace, and how the loop ended. -/
def executeSteps (runTool : String → List (String × JVal) → ToolResponse) :
    List Step → DependencyState →
    List StepRecord × DependencyState × List ToolCall × Option StepFailure
  | [], s => ([], s, [], none)
  | step :: rest, s =>
      match execute_single_step runTool s step with
      | .error msg => ([], s, [], some (.resolution msg))
      | .ok (record, call) =>
          if record.success then
            let s' := s.store step.step_id record.data
            let (recs, s'', calls, ending) := executeSteps runTool rest s'
            (record :: recs, s'', call :: calls, ending)
          else
            ([record], s, [call], some (.toolFailure step record.data.error))

/-- Embedding of `_create_skipped_result`. -/
def create_skipped_result : ExecutionResult :=
  { execution_status := "skipped", step_results := [], executed_steps := 0,
    metadata := { reason := some "plan_impossible" } }

/-- Embedding of `_create_failed_result`; `error or "Unknown error"`
replaces a missing or empty error message. -/
def create_failed_result (step_results : List StepRecord)
    (executed_steps : Nat) (failed_step : Step) (error : Option String) :
    ExecutionResult :=
  { execution_status := "failed", step_results := step_results,
    executed_steps := executed_steps,
    metadata :=
      { failed_step_id := some failed_step.step_id,
        failed_tool := some failed_step.tool_name,
        error := some (match error with
                       | some e => if e = "" then "Unknown error" else e
                       | none => "Unknown error") } }

/-- Embedding of `execute_plan`, instrumented with the final dependency
state and the tool-call trace.  An impossible plan short-circuits to
the skipped result before the state is even created.  The source's
catch-all `except Exception` branch (`error_type = "unexpected"`) has
no trigger in the model because `run_tool` is total. -/
def execute_plan_full (runTool : String → List (String × JVal) → ToolResponse)
    (plan : PlannerOutput) :
    ExecutionResult × DependencyState × List ToolCall :=
  if plan.plan_status = "impossible" then
    (create_skipped_result, DependencyState.empty, [])
  else
    let (recs, s, calls, ending) := executeSteps runTool plan.steps DependencyState.empty
    match ending with
    | none =>
        ({ execution_status := "completed", step_results := recs,
           executed_steps := recs.length, metadata := {} }, s, calls)
    | some (.toolFailure failed_step err) =>
        (create_failed_result recs recs.length failed_step err, s, calls)
    | some (.resolution msg) =>
        ({ execution_status := "failed", step_results := recs,
           executed_steps := recs.length,
           metadata := { error := some msg,
                         error_type := some "dependency_resolution" } },
         s, calls)

/-- Embedding of `execute_plan` proper: the `ExecutionResult` alone. -/
def execute_plan (runTool : String → List (String × JVal) → ToolResponse)
    (plan : PlannerOutput) : ExecutionResult :=
  (execute_plan_full runTool plan).1

/-! ## Plan validator (core/planner_validator.py)

`validate_plan` consults the module-global `TOOL_REGISTRY`; the
registry is passed explicitly here.  Each entry's pydantic input
schema (`schema.model_validate`) is an external library collaborator
and is modelled as a checking function returning the error message on
failure; everything else in the validator is embedded concretely. -/

/-- The typed payload of a raised `PlannerValidationError`
(`_fail` builds exactly this dict). -/
structure ValidationError where
  category : String
  message : String
  step_id : Option Int := none
  tool_name : Option String := none

/-- Error built by `_fail(category, message, step)`. -/
def failStep (category message : String) (step : Step) : ValidationError :=
  { category := category, message := message,
    step_id := some step.step_id, tool_name := some step.tool_name }

/-- Error built by `_fail(category, message)` with no step. -/
def failPlan (category message : String) : ValidationError :=
  { category := category, message := message }

/-- Pydantic input-schema check of one registry entry: `none` when
`schema.model_validate` accepts the argument dict, otherwise the
`ValidationError` message it raises. -/
def SchemaCheck := List (String × JVal) → Option String

/-- Validator view of `TOOL_REGISTRY`: tool name to schema check. -/
def Registry := List (String × SchemaCheck)

def registryLookup (reg : Registry) (name : String) : Option SchemaCheck :=
  match reg with
  | [] => none
  | (n, c) :: rest => if n = name then some c else registryLookup rest name

/-- Loop body of `_validate_schema` over the step list, carrying the
`expected_id` counter and the `seen_ids` set. -/
def validateSchemaSteps : List Step → Int → List Int →
    Except ValidationError Unit
  | [], _, _ => .ok ()
  | step :: rest, expected, seen =>
      if step.step_id ∈ seen then
        .error (failStep "SCHEMA_ERROR" s!"Duplicate step_id {step.step_id}" step)
      else if step.step_id ≠ expected then
        .error (failStep "SCHEMA_ERROR"
          "step_id must be sequential starting from 1" step)
      else if strStrip step.instruction = "" then
        .error (failStep "SCHEMA_ERROR"
          "instruction must be a non-empty string" step)
      else if step.step_id = 1 ∧ ¬ step.dependencies.isEmpty then
        .error (failStep "SCHEMA_ERROR" "Step 1 must not have dependencies" step)
      else validateSchemaSteps rest (expected + 1) (step.step_id :: seen)

/-- Embedding of `_validate_schema`.  The `isinstance` checks on
`steps`, `tool_args` and `metadata` hold by construction of the model
types and are omitted. -/
def validate_schema (plan : PlannerOutput) : Except ValidationError Unit :=
  if plan.plan_status ≠ "possible" ∧ plan.plan_status ≠ "impossible" then
    .error (failPlan "SCHEMA_ERROR" "Invalid plan_status")
  else if plan.plan_status = "impossible" then
    if ¬ plan.steps.isEmpty then
      .error (failPlan "SCHEMA_ERROR" "Impossible plan must have empty steps")
    else .ok ()
  else if plan.steps.isEmpty then
    .error (failPlan "SCHEMA_ERROR" "Possible plan must contain steps")
  else validateSchemaSteps plan.steps 1 []

/-- Embedding of `_validate_fail_reason`: the field is required iff the
plan is impossible (pydantic restricts it to non-empty literals, so
Python truthiness coincides with presence). -/
def validate_fail_reason (plan : PlannerOutput) : Except ValidationError Unit :=
  if plan.plan_status = "impossible" then
    if plan.fail_reason.isNone then
      .error (failPlan "SCHEMA_ERROR"
        "fail_reason required when plan_status is impossible")
    else .ok ()
  else
    if plan.fail_reason.isSome then
      .error (failPlan "SCHEMA_ERROR"
        "fail_reason forbidden when plan_status is possible")
    else .ok ()

mutual
/-- Recursive payload scan of `_validate_no_inline_dependencies`. -/
def contains_dependency : JVal → Bool
  | .obj fields =>
      hasKey fields "from_step" || hasKey fields "from_field" ||
        containsDepFields fields
  | .arr xs => containsDepList xs
  | _ => false

def containsDepList : List JVal → Bool
  | [] => false
  | v :: rest => contains_dependency v || containsDepList rest

def containsDepFields : List (String × JVal) → Bool
  | [] => false
  | (_, v) :: rest => contains_dependency v || containsDepFields rest
end

/-- Embedding of `_has_dependency`. -/
def has_dependency (step : Step) (to_arg : String) : Bool :=
  step.dependencies.any (fun d => d.to_arg = to_arg)

/-- Embedding of `_filter_dependency_placeholders`: drop arguments that
are `None` and will be filled by a dependency. -/
def filter_dependency_placeholders (step : Step) : List (String × JVal) :=
  step.tool_args.filter fun kv =>
    match kv.2 with
    | .null => ¬ has_dependency step kv.1
    | _ => true

/-- Embedding of `_validate_no_inline_dependencies`. -/
def validate_no_inline_dependencies (step : Step) :
    Except ValidationError Unit :=
  if containsDepFields step.tool_args then
    .error (failStep "DEPENDENCY_ERROR"
      ("Dependencies must not be embedded inside tool_args; " ++
       "use metadata.dependencies only") step)
  else .ok ()

/-- Python comparison `dict.get(k) == "lit"` for a string literal. -/
def optEqStr (v : Option JVal) (s : String) : Bool :=
  match v with
  | some (.str t) => t = s
  | _ => false

/-- Python `len()` of a payload; unsized values raise `TypeError` in
Python, which is outside the plans the engine produces and is modelled
as length 0. -/
def pyLen (v : Option JVal) : Nat :=
  match v with
  | some (.arr xs) => xs.length
  | some (.str s) => s.length
  | some (.obj fs) => fs.length
  | _ => 0

/-- Python `isinstance(x, int)` (`bool` is a subclass of `int`). -/
def pyIsInt (v : Option JVal) : Bool :=
  match v with
  | some (.num _) => true
  | some (.bool _) => true
  | _ => false

/-- Integer value of a payload for comparisons (`True == 1`). -/
def pyIntVal (v : Option JVal) : Int :=
  match v with
  | some (.num n) => n
  | some (.bool b) => if b then 1 else 0
  | _ => 0

/-- Python `str()` of an optional payload, used only inside error
message interpolation. -/
def pyStr (v : Option JVal) : String :=
  match v with
  | none => "None"
  | some .null => "None"
  | some (.bool b) => if b then "True" else "False"
  | some (.num n) => toString n
  | some (.str s) => s
  | some (.arr _) => "[...]"
  | some (.obj _) => "{...}"

/-- Per-field loop of `_validate_datetime` rejecting forbidden literal
strings in datetime value fields. -/
def datetimeForbiddenLiteralCheck (step : Step) :
    List String → Except ValidationError Unit
  | [] => .ok ()
  | field :: rest =>
      match lookupKey step.tool_args field with
      | some (.str value) =>
          if strToLower value ∈ ["now", "today", "tomorrow", "yesterday"] then
            .error (failStep "DATETIME_ERROR"
              (s!"Field '{field}' cannot accept literal string '{value}' - " ++
               "use normalize_datetime or datetime(operation='now') first") step)
          else datetimeForbiddenLiteralCheck step rest
      | _ => datetimeForbiddenLiteralCheck step rest

/-- Required-field loop of the `date_diff` branch of
`_validate_datetime`. -/
def dateDiffRequiredCheck (step : Step) :
    List (String × String) → Except ValidationError Unit
  | [] => .ok ()
  | (field, description) :: rest =>
      if ¬ pyIsNone (lookupKey step.tool_args field) ∨
          has_dependency step field then
        dateDiffRequiredCheck step rest
      else
        .error (failStep "DATETIME_ERROR"
          s!"date_diff operation requires {description} (as literal or dependency)"
          step)

/-- Embedding of `_validate_datetime`. -/
def validate_datetime (step : Step) : Except ValidationError Unit := do
  let op := lookupKey step.tool_args "operation"
  datetimeForbiddenLiteralCheck step
    ["base_datetime", "start_datetime", "end_datetime"]
  if optEqStr op "now" then
    .ok ()
  else if optEqStr op "add_days" then
    if pyIsNone (lookupKey step.tool_args "days") then
      .error (failStep "DATETIME_ERROR"
        "add_days operation requires 'days' parameter" step)
    else if pyIsNone (lookupKey step.tool_args "base_datetime") ∧
        ¬ has_dependency step "base_datetime" then
      .error (failStep "DATETIME_ERROR"
        "add_days operation requires 'base_datetime' (as literal or dependency)"
        step)
    else .ok ()
  else if optEqStr op "day_of_week" then
    if pyIsNone (lookupKey step.tool_args "base_datetime") ∧
        ¬ has_dependency step "base_datetime" then
      .error (failStep "DATETIME_ERROR"
        "day_of_week operation requires 'base_datetime' (as literal or dependency)"
        step)
    else .ok ()
  else if optEqStr op "date_diff" then
    dateDiffRequiredCheck step
      [("start_datetime", "start datetime"), ("end_datetime", "end datetime"),
       ("unit", "time unit")]
  else
    .error (failStep "DATETIME_ERROR"
      s!"Unknown datetime operation: '{pyStr op}'" step)

/-- Embedding of `_validate_normalize_datetime`. -/
def validate_normalize_datetime (step : Step) : Except ValidationError Unit :=
  if ¬ pyTruthy (lookupKey step.tool_args "text") then
    .error (failStep "DATETIME_ERROR"
      "normalize_datetime requires text parameter" step)
  else .ok ()

/-- Embedding of `_validate_text_transform`. -/
def validate_text_transform (step : Step) : Except ValidationError Unit :=
  if ¬ hasKey step.tool_args "operation" then
    .error (failStep "TEXT_ERROR"
      "text_transform requires operation parameter" step)
  else if pyIsNone (lookupKey step.tool_args "text") ∧
      ¬ has_dependency step "text" then
    .error (failStep "TEXT_ERROR"
      "text_transform requires text (literal or dependency)" step)
  else .ok ()

/-- Embedding of `_validate_calculator`. -/
def validate_calculator (step : Step) : Except ValidationError Unit :=
  if ¬ pyTruthy (lookupKey step.tool_args "expression") then
    .error (failStep "ARITHMETIC_ERROR"
      "calculator requires expression parameter" step)
  else if ¬ step.dependencies.isEmpty then
    .error (failStep "ARITHMETIC_ERROR"
      "calculator cannot accept dependencies - all values must be literal numbers from the query"
      step)
  else .ok ()

/-- Embedding of `_validate_extract_from_text`. -/
def validate_extract_from_text (step : Step) : Except ValidationError Unit :=
  if pyIsNone (lookupKey step.tool_args "text") ∧
      ¬ has_dependency step "text" then
    .error (failStep "EXTRACT_ERROR"
      "extract_from_text requires text (literal or dependency)" step)
  else if ¬ pyTruthy (lookupKey step.tool_args "extract_type") then
    .error (failStep "EXTRACT_ERROR"
      "extract_from_text requires extract_type" step)
  else if optEqStr (lookupKey step.tool_args "extract_type") "datetime" ∧
      ¬ pyTruthy (lookupKey step.tool_args "reference") then
    .error (failStep "EXTRACT_ERROR"
      "datetime extraction requires reference parameter for better accuracy"
      step)
  else .ok ()

/-- Embedding of `_validate_weather`. -/
def validate_weather (step : Step) : Except ValidationError Unit :=
  let locations := (lookupKey step.tool_args "locations").getD (.arr [])
  if ¬ pyTruthy (some locations) then
    .error (failStep "WEATHER_ERROR" "weather requires locations list" step)
  else if pyLen (some locations) > 5 then
    .error (failStep "WEATHER_ERROR" "weather accepts maximum 5 locations" step)
  else
    let days_ahead := lookupKey step.tool_args "days_ahead"
    if pyIsNone days_ahead then
      .error (failStep "WEATHER_ERROR" "weather requires days_ahead parameter" step)
    else if ¬ pyIsInt days_ahead then
      .error (failStep "WEATHER_ERROR"
        "days_ahead must be a literal integer (0-14), not from dependency" step)
    else if ¬ (0 ≤ pyIntVal days_ahead ∧ pyIntVal days_ahead ≤ 14) then
      .error (failStep "WEATHER_ERROR" "days_ahead must be between 0 and 14" step)
    else .ok ()

/-- Embedding of `_validate_web_search`. -/
def validate_web_search (step : Step) : Except ValidationError Unit :=
  if ¬ pyTruthy (lookupKey step.tool_args "query") then
    .error (failStep "WEB_ERROR" "web_search requires query parameter" step)
  else .ok ()

/-- Per-step body of `_validate_tools`: registry existence, inline
dependency scan, pydantic schema check on the placeholder-filtered
arguments, then the tool-specific rules. -/
def validateToolStep (reg : Registry) (step : Step) :
    Except ValidationError Unit := do
  match registryLookup reg step.tool_name with
  | none =>
      .error (failStep "TOOL_ERROR" s!"Unknown tool: {step.tool_name}" step)
  | some check =>
      validate_no_inline_dependencies step
      match check (filter_dependency_placeholders step) with
      | some msg => .error (failStep "SCHEMA_ERROR" msg step)
      | none =>
          if step.tool_name = "datetime" then validate_datetime step
          else if step.tool_name = "normalize_datetime" then
            validate_normalize_datetime step
          else if step.tool_name = "text_transform" then
            validate_text_transform step
          else if step.tool_name = "calculator" then validate_calculator step
          else if step.tool_name = "extract_from_text" then
            validate_extract_from_text step
          else if step.tool_name = "weather" then validate_weather step
          else if step.tool_name = "web_search" then validate_web_search step
          else .ok ()

/-- Embedding of `_validate_tools`. -/
def validate_tools (reg : Registry) (plan : PlannerOutput) :
    Except ValidationError Unit :=
  go plan.steps
where
  go : List Step → Except ValidationError Unit
    | [] => .ok ()
    | step :: rest => do
        validateToolStep reg step
        go rest

/-- Embedding of `_to_arg_root_exists`. -/
def to_arg_root_exists (tool_args : List (String × JVal)) (to_arg : String) :
    Bool :=
  hasKey tool_args (rootBeforeDot to_arg)

/-- Per-dependency loop of `_validate_dependencies` for one step. -/
def validateDepsOfStep (step_ids : List Int) (step : Step) :
    List Dependency → Except ValidationError Unit
  | [] => .ok ()
  | dep :: rest =>
      if dep.from_field ≠ "data.value" then
        .error (failStep "DEPENDENCY_ERROR"
          "Dependencies must target 'data.value'" step)
      else if dep.from_step ∉ step_ids then
        .error (failStep "DEPENDENCY_ERROR"
          s!"Dependency from missing step {dep.from_step}" step)
      else if dep.from_step ≥ step.step_id then
        .error (failStep "DEPENDENCY_ERROR"
          "Dependency must reference earlier step" step)
      else if ¬ to_arg_root_exists step.tool_args dep.to_arg then
        .error (failStep "DEPENDENCY_ERROR"
          s!"Invalid to_arg '{dep.to_arg}'" step)
      else validateDepsOfStep step_ids step rest

/-- Embedding of `_validate_dependencies`. -/
def validate_dependencies (plan : PlannerOutput) :
    Except ValidationError Unit :=
  let step_ids := plan.steps.map (·.step_id)
  go step_ids plan.steps
where
  go (step_ids : List Int) : List Step → Except ValidationError Unit
    | [] => .ok ()
    | step :: rest => do
        validateDepsOfStep step_ids step step.dependencies
        go step_ids rest

/-! ### Cycle detection (`_validate_no_cycles`)

The Python DFS recurses without a bound and relies on the stack check
for termination; the embedding takes fuel, with a distinguished
`fuelExhausted` outcome.  For the graphs the engine builds the fuel
`steps.length + 1` can never run out (for validated dependencies this
is proved below). -/

inductive CycleCheckError where
  | cycleDetected
  | fuelExhausted
deriving DecidableEq

/-- Adjacency of the dependency graph: `graph[s.step_id]` collects the
`from_step` targets of every step carrying that id, in plan order. -/
def planGraph (steps : List Step) (node : Int) : List Int :=
  (steps.filter (fun s => s.step_id = node)).flatMap
    (fun s => s.dependencies.map (·.from_step))

/-- Keys of a Python dict built by insertion: first occurrence order. -/
def orderedKeys : List Int → List Int :=
  go []
where
  go (seen : List Int) : List Int → List Int
    | [] => []
    | x :: rest => if x ∈ seen then go seen rest else x :: go (x :: seen) rest

/-- The `dfs(node)` of `_validate_no_cycles`: cycle when `node` is on
the walk stack, prune on `visited`, otherwise run the
`for parent in graph[node]` loop (a fold threading `visited` and
stopping at the first error) and then mark the node visited. -/
def dfsNode (graph : Int → List Int) : Nat → List Int → List Int → Int →
    Except CycleCheckError (List Int)
  | fuel, visited, stack, node =>
    if node ∈ stack then .error .cycleDetected
    else if node ∈ visited then .ok visited
    else
      match fuel with
      | 0 => .error .fuelExhausted
      | fuel' + 1 =>
          match (graph node).foldlM
              (fun vis p => dfsNode graph fuel' vis (node :: stack) p)
              visited with
          | .error e => .error e
          | .ok visited' => .ok (node :: visited')

/-- The parent loop of `dfs`, written out recursively (equal to the
fold inside `dfsNode`, see `dfsParents_eq_foldlM`). -/
def dfsParents (graph : Int → List Int) (fuel : Nat) :
    List Int → List Int → List Int → Except CycleCheckError (List Int)
  | visited, _, [] => .ok visited
  | visited, stack, p :: ps =>
      match dfsNode graph fuel visited stack p with
      | .error e => .error e
      | .ok visited' => dfsParents graph fuel visited' stack ps

/-- Embedding of `_validate_no_cycles`: run the DFS from every graph
key in insertion order, threading the `visited` set. -/
def validate_no_cycles (plan : PlannerOutput) : Except CycleCheckError Unit :=
  go (orderedKeys (plan.steps.map (·.step_id))) []
where
  go : List Int → List Int → Except CycleCheckError Unit
    | [], _ => .ok ()
    | r :: rest, visited =>
        match dfsNode (planGraph plan.steps) (plan.steps.length + 1)
            visited [] r with
        | .error e => .error e
        | .ok visited' => go rest visited'

/-- The `ValidationError` raised by the cycle branch; `fuelExhausted`
is mapped to a category that no source check uses, and is proved
unreachable where `validate_plan`'s behaviour is at stake. -/
def cycleCheckErrorToValidationError : CycleCheckError → ValidationError
  | .cycleDetected => failPlan "DEPENDENCY_ERROR" "Cyclic dependency detected"
  | .fuelExhausted => failPlan "FUEL_EXHAUSTED" "model fuel exhausted"

/-- Python `hay.count(needle)`: non-overlapping occurrences scanned
from the left; the fuel equals the haystack length (only non-empty
needles are used). -/
def countSubAux : Nat → List Char → List Char → Nat
  | 0, _, _ => 0
  | _ + 1, [], _ => 0
  | f + 1, h :: t, needle =>
      if needle.isPrefixOf (h :: t) then
        1 + countSubAux f ((h :: t).drop needle.length) needle
      else countSubAux f t needle

def countSub (hay needle : String) : Nat :=
  countSubAux hay.data.length hay.data needle.data

def month_words : List String :=
  ["january", "february", "march", "april", "may", "june",
   "july", "august", "september", "october", "november", "december"]

def date_words : List String :=
  ["date", "day", "week", "month", "year", "days", "weeks", "months", "years",
   "today", "tomorrow", "yesterday",
   "monday", "tuesday", "wednesday", "thursday", "friday", "saturday", "sunday"]

/-- The `has_specific_dates` test of `_validate_query_intent`. -/
def hasSpecificDates (q : String) : Bool :=
  month_words.any (fun m => strContains q m) ||
    ["today", "tomorrow", "yesterday"].any (fun w => strContains q w)

/-- The `is_date_difference` test of `_validate_query_intent`. -/
def isDateDifference (q : String) : Bool :=
  ((strContains q "between" && strContains q "and") ||
   (strContains q "from" && strContains q "to") ||
   strContains q "until" || strContains q "since") && hasSpecificDates q

/-- Embedding of `_validate_query_intent`: date-difference queries must
not use the calculator; pure arithmetic queries must not use the
datetime tool. -/
def validate_query_intent (plan : PlannerOutput) (user_query : String) :
    Except ValidationError Unit :=
  let q := strToLower user_query
  if isDateDifference q then
    match plan.steps.find? (fun s => s.tool_name = "calculator") with
    | some calc_step =>
        .error (failStep "INTENT_ERROR"
          "Date difference queries should use datetime.date_diff, not calculator"
          calc_step)
    | none => .ok ()
  else
    let is_arithmetic :=
      ["how many", "total", "calculate", "sum"].any (fun m => strContains q m)
    let has_date_words := date_words.any (fun w => strContains q w)
    if is_arithmetic ∧ ¬ has_date_words ∧ ¬ hasSpecificDates q then
      match plan.steps.find? (fun s => s.tool_name = "datetime") with
      | some step =>
          .error (failStep "INTENT_ERROR"
            "Pure arithmetic queries should use calculator, not datetime" step)
      | none => .ok ()
    else .ok ()

/-- The `is_conversion` test of `_validate_datetime_usage`. -/
def isConversion (q : String) : Bool :=
  (strContains q "convert" &&
    ["hour", "minute", "second", "day", "week"].any (fun u => strContains q u)) ||
  (countSub q " in " = 1 &&
    ["hours", "minutes", "seconds"].any (fun u => strContains q u))

/-- Embedding of `_validate_datetime_usage`: unit-conversion queries
must not use the datetime tool. -/
def validate_datetime_usage (plan : PlannerOutput) (user_query : String) :
    Except ValidationError Unit :=
  if isConversion (strToLower user_query) then
    match plan.steps.find? (fun s => s.tool_name = "datetime") with
    | some step =>
        .error (failStep "DATETIME_ERROR"
          "datetime forbidden for time unit conversion queries - use calculator"
          step)
    | none => .ok ()
  else .ok ()

/-- Web-search part of `_validate_pipelines`: a `web_search` step must
be immediately followed by `combine_search_results`, except in a
single-step plan. -/
def pipelineWebCheck (total_len : Nat) : List Step → Except ValidationError Unit
  | [] => .ok ()
  | step :: rest =>
      if step.tool_name = "web_search" then
        match rest with
        | [] =>
            if total_len > 1 then
              .error (failStep "PIPELINE_ERROR"
                "web_search must be followed by combine_search_results" step)
            else .ok ()
        | next :: _ =>
            if next.tool_name ≠ "combine_search_results" then
              .error (failStep "PIPELINE_ERROR"
                "web_search must be immediately followed by combine_search_results"
                step)
            else pipelineWebCheck total_len rest
      else pipelineWebCheck total_len rest

/-- Inner scan of the weather part of `_validate_pipelines`: the first
later calculator step that declares a dependency on the weather step. -/
def findCalcDependingOn (weather_step_id : Int) : List Step → Option Step
  | [] => none
  | fs :: rest =>
      if fs.tool_name = "calculator" ∧
          fs.dependencies.any (fun d => d.from_step = weather_step_id) then
        some fs
      else findCalcDependingOn weather_step_id rest

/-- Weather part of `_validate_pipelines`: weather output must not be
wired into a calculator step. -/
def pipelineWeatherCheck : List Step → Except ValidationError Unit
  | [] => .ok ()
  | step :: rest =>
      if step.tool_name = "weather" then
        match findCalcDependingOn step.step_id rest with
        | some bad =>
            .error (failStep "PIPELINE_ERROR"
              "weather results cannot be used in calculator" bad)
        | none => pipelineWeatherCheck rest
      else pipelineWeatherCheck rest

/-- Embedding of `_validate_pipelines`. -/
def validate_pipelines (plan : PlannerOutput) : Except ValidationError Unit := do
  pipelineWebCheck plan.steps.length plan.steps
  pipelineWeatherCheck plan.steps

/-- Embedding of `validate_plan`: the eight checks in source order,
first failure wins; on success the plan itself is returned unchanged
as `normalized_plan`. -/
def validate_plan (reg : Registry) (plan : PlannerOutput)
    (user_query : String) : Except ValidationError PlannerOutput := do
  validate_schema plan
  validate_fail_reason plan
  validate_tools reg plan
  validate_dependencies plan
  match validate_no_cycles plan with
  | .error e => .error (cycleCheckErrorToValidationError e)
  | .ok () => pure ()
  validate_query_intent plan user_query
  validate_datetime_usage plan user_query
  validate_pipelines plan
  return plan

/-! ## Recovery loop (core/agent.py, run_with_recovery)

The loop's collaborators are oracles: `execOut n` is the result of the
`(n+1)`-st `execute_plan` invocation (the tools behind it may answer
differently on every run), `canCall k` is the quota check made before
the `(k+1)`-st replanner call, and `replanOut k` is that call's result
(`none` models `replan_gateway` raising).  The `while True` loop takes
fuel; sufficiency is proved below.  The state is instrumented with the
invocation count and, per failed-step key, the number of transient
retry re-executions. -/

/-- Limits from `app/config.py`. -/
def MAX_RETRIES_PER_STEP : Nat := 2

def MAX_REPLANS_PER_RUN : Nat := 1

/-- The per-run limits consumed by the loop (the source reads the
module constants of `app/config.py`). -/
structure RecoveryConfig where
  max_retries_per_step : Nat
  max_replans_per_run : Nat

/-- The configuration the deployed engine runs with. -/
def configLimits : RecoveryConfig :=
  { max_retries_per_step := MAX_RETRIES_PER_STEP,
    max_replans_per_run := MAX_REPLANS_PER_RUN }

/-- External collaborators of one recovery run. -/
structure RecoveryOracles where
  execOut : Nat → ExecutionResult
  canCall : Nat → Bool
  replanOut : Nat → Option PlannerOutput

/-- Mutable state of `run_with_recovery`: the current plan, the
`retries` dict (total function, absent keys at 0), and the `replans`
counter, instrumented with the executor invocation count and the
per-key count of transient retry re-executions. -/
structure RecoveryState where
  plan : PlannerOutput
  retries : Option Int → Nat
  replans : Nat
  invocations : Nat
  retryExecs : Option Int → Nat

/-- Embedding of `_get_tool_name`. -/
def get_tool_name (plan : PlannerOutput) (step_id : Option Int) :
    Option String :=
  match step_id with
  | none => none
  | some sid => (plan.steps.find? (fun s => s.step_id = sid)).map (·.tool_name)

/-- One fuelled unfolding of the `while True` loop of
`run_with_recovery`.  On a transient failure the retry counter of the
failed step id is bumped and the same plan re-runs while the counter
stays within `max_retries_per_step`.  On a structural failure, while
replans remain, `replans` is incremented first and then, inside the
`try` block, the quota is checked and the replanner called: both a
`QuotaExceeded` raise and a replanner fault are caught by the generic
`except Exception` handler, which returns the current failed executor
output.  Terminal failures and exhausted budgets return immediately. -/
def run_with_recovery_aux (cfg : RecoveryConfig) (o : RecoveryOracles) :
    Nat → RecoveryState →
    Option (ExecutionResult × PlannerOutput × RecoveryState)
  | 0, _ => none
  | fuel + 1, st₀ =>
      let executor_output := o.execOut st₀.invocations
      let st := { st₀ with invocations := st₀.invocations + 1 }
      if executor_output.execution_status = "completed" then
        some (executor_output, st.plan, st)
      else
        let error := executor_output.metadata.error.getD ""
        let failed_step_id := executor_output.metadata.failed_step_id
        let failed_tool := get_tool_name st.plan failed_step_id
        match classify_failure error failed_tool with
        | .transient =>
            let newCount := st.retries failed_step_id + 1
            let st := { st with
              retries := Function.update st.retries failed_step_id newCount }
            if newCount ≤ cfg.max_retries_per_step then
              run_with_recovery_aux cfg o fuel
                { st with
                  retryExecs := Function.update st.retryExecs failed_step_id
                    (st.retryExecs failed_step_id + 1) }
            else
              some (executor_output, st.plan, st)
        | .structural =>
            if st.replans < cfg.max_replans_per_run then
              let attempt := st.replans
              let st := { st with replans := attempt + 1 }
              if ¬ o.canCall attempt then
                some (executor_output, st.plan, st)
              else
                match o.replanOut attempt with
                | none => some (executor_output, st.plan, st)
                | some new_plan =>
                    run_with_recovery_aux cfg o fuel { st with plan := new_plan }
            else some (executor_output, st.plan, st)
        | .terminal => some (executor_output, st.plan, st)

/-- Entry state of `run_with_recovery`: empty `retries` dict, zero
`replans`, no invocations yet. -/
def initialRecoveryState (initial_plan : PlannerOutput) : RecoveryState :=
  { plan := initial_plan, retries := fun _ => 0, replans := 0,
    invocations := 0, retryExecs := fun _ => 0 }

/-- Embedding of `run_with_recovery` from the validated initial plan. -/
def run_with_recovery (cfg : RecoveryConfig) (o : RecoveryOracles)
    (fuel : Nat) (initial_plan : PlannerOutput) :
    Option (ExecutionResult × PlannerOutput × RecoveryState) :=
  run_with_recovery_aux cfg o fuel (initialRecoveryState initial_plan)

/-- Remaining recovery budget of a loop state over a key set `K`:
replans left plus, for each possible failed-step key, retries left.
Every loop iteration that does not return strictly decreases it, which
bounds the number of Executor invocations. -/
def recoveryPotential (cfg : RecoveryConfig) (K : Finset (Option Int))
    (st : RecoveryState) : Nat :=
  (cfg.max_replans_per_run - st.replans) +
    ∑ k ∈ K, (cfg.max_retries_per_step - st.retries k)

/-! ## Derived notions used in the statements -/

/-- Edge of a plan's dependency graph: step `u` declares a dependency
on step `v` (matching the graph built by `_validate_no_cycles`). -/
def planEdge (plan : PlannerOutput) (u v : Int) : Prop :=
  ∃ s ∈ plan.steps, s.step_id = u ∧ ∃ d ∈ s.dependencies, d.from_step = v

/-- The plan's dependency graph contains a cycle: some node reaches
itself through a non-empty chain of dependency edges. -/
def HasCycle (plan : PlannerOutput) : Prop :=
  ∃ u, Relation.TransGen (planEdge plan) u u

/-! ## Concrete sample inputs for witnesses and counterexamples -/

/-- A successful tool response carrying a `data.value` payload. -/
def respOk : ToolResponse :=
  { success := true, data := some (.obj [("value", .str "2026-01-29 00:00:00")]),
    error := none }

/-- A transient tool failure (connection timeout). -/
def respTimeout : ToolResponse :=
  { success := false, data := none, error := some "Connection timeout" }

/-- A structural tool failure (pydantic-style type error). -/
def respBadInput : ToolResponse :=
  { success := false, data := none,
    error := some "Input should be a valid integer" }

/-- Tool oracle on which every invocation fails transiently. -/
def failTool : String → List (String × JVal) → ToolResponse :=
  fun _ _ => respTimeout

/-- Tool oracle on which every invocation fails structurally. -/
def badInputTool : String → List (String × JVal) → ToolResponse :=
  fun _ _ => respBadInput

/-- A single text-transform step with literal arguments. -/
def sampleStep1 : Step :=
  { step_id := 1, instruction := "transform the text",
    tool_name := "text_transform",
    tool_args := [("text", .str "hello"), ("operation", .str "uppercase")],
    dependencies := [] }

/-- A one-step plan over `sampleStep1`. -/
def samplePlan1 : PlannerOutput :=
  { goal := "transform the text", plan_status := "possible",
    steps := [sampleStep1], fail_reason := none }

/-- An impossible plan (empty steps, fail reason present). -/
def impossiblePlan : PlannerOutput :=
  { goal := "interpret my dream", plan_status := "impossible", steps := [],
    fail_reason := some .scope_mismatch }

/-- A weather step used by the recovery-loop scenarios. -/
def weatherStep : Step :=
  { step_id := 1, instruction := "get the weather in Paris",
    tool_name := "weather",
    tool_args := [("locations", .arr [.str "Paris"]), ("days_ahead", .num 0)],
    dependencies := [] }

/-- A second, independent text step following the weather step. -/
def textStep2 : Step :=
  { step_id := 2, instruction := "shout the result",
    tool_name := "text_transform",
    tool_args := [("text", .str "sunny"), ("operation", .str "uppercase")],
    dependencies := [] }

/-- The two-step plan driven through the recovery loop. -/
def twoStepPlan : PlannerOutput :=
  { goal := "weather then shout", plan_status := "possible",
    steps := [weatherStep, textStep2], fail_reason := none }

/-- Registry whose pydantic checks accept every argument dict; the
sample plans' literal arguments do satisfy the real input schemas. -/
def sampleRegistry : Registry :=
  [("weather", fun _ => none), ("text_transform", fun _ => none)]

/-- Tool oracle where the weather tool times out and everything else
succeeds. -/
def weatherDownTool : String → List (String × JVal) → ToolResponse :=
  fun name _ => if name = "weather" then respTimeout else respOk

/-- Tool oracle where the text tool times out and everything else
succeeds. -/
def textDownTool : String → List (String × JVal) → ToolResponse :=
  fun name _ => if name = "text_transform" then respTimeout else respOk

/-- Executor-outcome trace refuting the spec's invocation bound: the
first two runs fail transiently at step 1, the following runs fail
transiently at step 2; every outcome is produced by the real executor
on `twoStepPlan` under a per-run tool oracle. -/
def boundOracles : RecoveryOracles :=
  { execOut := fun n =>
      if n < 2 then execute_plan weatherDownTool twoStepPlan
      else execute_plan textDownTool twoStepPlan,
    canCall := fun _ => true,
    replanOut := fun _ => none }

/-- Oracles for the quota scenario: the only execution fails
structurally and the quota is exhausted when the replanner is about to
be called. -/
def quotaOracles : RecoveryOracles :=
  { execOut := fun _ => execute_plan badInputTool samplePlan1,
    canCall := fun _ => false,
    replanOut := fun _ => none }

/-- Constant trace in which every execution fails transiently at
step 1 of `samplePlan1`. -/
def transientOracles : RecoveryOracles :=
  { execOut := fun _ => execute_plan failTool samplePlan1,
    canCall := fun _ => true,
    replanOut := fun _ => none }

/-- A step with an empty instruction, used in the cyclic plan that
fails schema validation. -/
def blankStep1 : Step :=
  { step_id := 1, instruction := " ", tool_name := "text_transform",
    tool_args := [("text", .str "hello"), ("operation", .str "uppercase")],
    dependencies := [] }

/-- Step 2 of the cyclic plans: depends on step 3. -/
def cycStep2 : Step :=
  { step_id := 2, instruction := "transform again",
    tool_name := "text_transform",
    tool_args := [("text", .str "hello"), ("operation", .str "uppercase")],
    dependencies := [⟨3, "data.value", "text"⟩] }

/-- Step 3 of the cyclic plans: depends on step 2. -/
def cycStep3 : Step :=
  { step_id := 3, instruction := "and once more",
    tool_name := "text_transform",
    tool_args := [("text", .str "hello"), ("operation", .str "uppercase")],
    dependencies := [⟨2, "data.value", "text"⟩] }

/-- A cyclic plan (2 ↔ 3) whose first step also has a blank
instruction, so validation fails at the schema stage. -/
def cyclicBlankPlan : PlannerOutput :=
  { goal := "loop", plan_status := "possible",
    steps := [blankStep1, cycStep2, cycStep3], fail_reason := none }

/-- A cyclic plan (2 ↔ 3) that passes the schema, fail-reason and tool
checks. -/
def cyclicCleanPlan : PlannerOutput :=
  { goal := "loop", plan_status := "possible",
    steps := [sampleStep1, cycStep2, cycStep3], fail_reason := none }

/-- Registry for the cyclic plans. -/
def textRegistry : Registry := [("text_transform", fun _ => none)]

/-- A two-step plan with one valid dependency (step 2 reads step 1),
used to witness the cycle-free validator runs. -/
def chainStep2 : Step :=
  { step_id := 2, instruction := "shout it",
    tool_name := "text_transform",
    tool_args := [("text", .null), ("operation", .str "uppercase")],
    dependencies := [⟨1, "data.value", "text"⟩] }

def chainPlan : PlannerOutput :=
  { goal := "chain", plan_status := "possible",
    steps := [sampleStep1, chainStep2], fail_reason := none }

/-! ## Helper lemmas -/

theorem storeEntry_find_self (entries : List (Int × ToolResponse)) (id : Int)
    (o : ToolResponse) : findEntry (storeEntry entries id o) id = some o := by
  induction entries with
  | nil => simp [storeEntry, findEntry]
  | cons hd tl ih =>
      obtain ⟨k, v⟩ := hd
      by_cases hk : k = id
      · simp [storeEntry, hk, findEntry]
      · simp [storeEntry, hk, findEntry, ih]

theorem storeEntry_find_other (entries : List (Int × ToolResponse)) (id k : Int)
    (o : ToolResponse) (hk : k ≠ id) :
    findEntry (storeEntry entries id o) k = findEntry entries k := by
  have hik : ¬ id = k := fun h => hk h.symm
  induction entries with
  | nil =>
      simp only [storeEntry, findEntry]
      rw [if_neg hik]
  | cons hd tl ih =>
      obtain ⟨k', v⟩ := hd
      by_cases hk' : k' = id
      · subst hk'
        simp only [storeEntry, if_pos rfl, findEntry]
        rw [if_neg hik, if_neg hik]
      · simp only [storeEntry, if_neg hk', findEntry]
        by_cases he : k' = k
        · rw [if_pos he, if_pos he]
        · rw [if_neg he, if_neg he, ih]

theorem store_has_step (s : DependencyState) (id k : Int) (o : ToolResponse) :
    (s.store id o).has_step k = if k = id then true else s.has_step k := by
  by_cases hk : k = id
  · subst hk
    simp [DependencyState.has_step, DependencyState.find, DependencyState.store,
      storeEntry_find_self]
  · simp [DependencyState.has_step, DependencyState.find, DependencyState.store,
      storeEntry_find_other _ _ _ _ hk, hk]

theorem execute_single_step_ok (runTool : String → List (String × JVal) → ToolResponse)
    (s : DependencyState) (step : Step) (rec : StepRecord) (call : ToolCall)
    (h : execute_single_step runTool s step = .ok (rec, call)) :
    rec.step_id = step.step_id ∧ rec.success = rec.data.success := by
  unfold execute_single_step at h
  rcases hr : (if step.dependencies.isEmpty then .ok step.tool_args
               else s.resolve_dependencies step.tool_args step.dependencies :
               Except String (List (String × JVal))) with e | args <;>
    rw [hr] at h
  · exact absurd h (by simp)
  · simp only [Except.ok.injEq, Prod.mk.injEq] at h
    obtain ⟨h1, _⟩ := h
    subst h1
    exact ⟨rfl, rfl⟩

theorem except_bind_ok {ε α β : Type} {x : Except ε α} {f : α → Except ε β}
    {b : β} (h : (x >>= f) = .ok b) : ∃ a, x = .ok a ∧ f a = .ok b := by
  cases x with
  | error e => simp [Bind.bind, Except.bind] at h
  | ok a => exact ⟨a, rfl, by simpa [Bind.bind, Except.bind] using h⟩

theorem except_bind_error {ε α β : Type} {x : Except ε α} {f : α → Except ε β}
    {e : ε} (h : (x >>= f) = .error e) :
    x = .error e ∨ ∃ a, x = .ok a ∧ f a = .error e := by
  cases x with
  | error e' =>
      left
      simpa [Bind.bind, Except.bind] using h
  | ok a =>
      right
      exact ⟨a, rfl, by simpa [Bind.bind, Except.bind] using h⟩

theorem validateDepsOfStep_ok (step_ids : List Int) (step : Step)
    (deps : List Dependency) :
    validateDepsOfStep step_ids step deps = .ok () →
      ∀ d ∈ deps, d.from_step ∈ step_ids ∧ d.from_step < step.step_id := by
  induction deps with
  | nil => intro _ d hd; simp at hd
  | cons dep rest ih =>
      intro h d hd
      rw [validateDepsOfStep] at h
      split_ifs at h with h1 h2 h3 h4
      try simp at h
      rcases List.mem_cons.1 hd with hd' | hd'
      · subst hd'
        exact ⟨h2, not_le.1 h3⟩
      · exact ih h d hd'

theorem validateDepsOfStep_error (step_ids : List Int) (step : Step)
    (deps : List Dependency) (e : ValidationError) :
    validateDepsOfStep step_ids step deps = .error e →
      e.category = "DEPENDENCY_ERROR" := by
  induction deps with
  | nil => intro h; simp [validateDepsOfStep] at h
  | cons dep rest ih =>
      intro h
      rw [validateDepsOfStep] at h
      split_ifs at h <;>
        first
          | exact ih h
          | (simp only [Except.error.injEq] at h
             subst h
             rfl)

theorem validate_dependencies_go_ok (step_ids : List Int) (steps : List Step) :
    validate_dependencies.go step_ids steps = .ok () →
      ∀ s ∈ steps, validateDepsOfStep step_ids s s.dependencies = .ok () := by
  induction steps with
  | nil => intro _ s hs; simp at hs
  | cons step rest ih =>
      intro h s hs
      rw [validate_dependencies.go] at h
      obtain ⟨a, ha, hrest⟩ := except_bind_ok h
      rcases List.mem_cons.1 hs with hs' | hs'
      · subst hs'
        cases a
        exact ha
      · exact ih hrest s hs'

theorem validate_dependencies_go_error (step_ids : List Int) (steps : List Step)
    (e : ValidationError) :
    validate_dependencies.go step_ids steps = .error e →
      e.category = "DEPENDENCY_ERROR" := by
  induction steps with
  | nil => intro h; simp [validate_dependencies.go] at h
  | cons step rest ih =>
      intro h
      rw [validate_dependencies.go] at h
      rcases except_bind_error h with h' | ⟨a, _, h'⟩
      · exact validateDepsOfStep_error _ _ _ _ h'
      · exact ih h'

theorem validate_dependencies_ok (plan : PlannerOutput)
    (h : validate_dependencies plan = .ok ()) :
    ∀ s ∈ plan.steps, ∀ d ∈ s.dependencies,
      d.from_step ∈ plan.steps.map (·.step_id) ∧ d.from_step < s.step_id := by
  intro s hs d hd
  exact validateDepsOfStep_ok _ s s.dependencies
    (validate_dependencies_go_ok _ plan.steps h s hs) d hd

theorem validate_dependencies_error (plan : PlannerOutput) (e : ValidationError)
    (h : validate_dependencies plan = .error e) :
    e.category = "DEPENDENCY_ERROR" :=
  validate_dependencies_go_error _ plan.steps e h

theorem transGen_lt {r : Int → Int → Prop} (hdec : ∀ a b, r a b → b < a)
    {a b : Int} (h : Relation.TransGen r a b) : b < a := by
  induction h with
  | single h' => exact hdec _ _ h'
  | tail _ h' ih => exact lt_trans (hdec _ _ h') ih

/-- Dependencies that validate point strictly backwards, so the
dependency graph of a plan whose dependency check passed has no
cycle. -/
theorem validated_deps_acyclic (plan : PlannerOutput)
    (h : validate_dependencies plan = .ok ()) : ¬ HasCycle plan := by
  rintro ⟨u, htg⟩
  refine lt_irrefl u (transGen_lt ?_ htg)
  rintro a b ⟨s, hs, hsid, d, hd, hdfs⟩
  have := (validate_dependencies_ok plan h s hs d hd).2
  omega

/-- Membership in the DFS adjacency list comes from a dependency edge
of the plan. -/
theorem planGraph_mem (steps : List Step) (n v : Int)
    (h : v ∈ planGraph steps n) :
    ∃ s ∈ steps, s.step_id = n ∧ ∃ d ∈ s.dependencies, d.from_step = v := by
  simp only [planGraph, List.mem_flatMap, List.mem_filter, List.mem_map] at h
  obtain ⟨s, ⟨hs, hsid⟩, d, hd, hdv⟩ := h
  exact ⟨s, hs, by simpa using hsid, d, hd, hdv⟩

theorem dfsParents_eq_foldlM (graph : Int → List Int) (fuel : Nat)
    (stack : List Int) : ∀ (parents visited : List Int),
    dfsParents graph fuel visited stack parents =
      parents.foldlM (fun vis p => dfsNode graph fuel vis stack p) visited := by
  intro parents
  induction parents with
  | nil => intro visited; rfl
  | cons p ps ih =>
      intro visited
      rw [dfsParents]
      rw [List.foldlM_cons]
      cases h : dfsNode graph fuel visited stack p with
      | error e => rfl
      | ok v => exact ih v

/-- Key DFS lemma: on a graph whose edges strictly decrease and stay
inside a finite node set `T`, the walk from any node succeeds whenever
the fuel exceeds the number of `T`-nodes below it — the cycle branch
and the fuel branch are both unreachable. -/
theorem dfsNode_ok (graph : Int → List Int) (T : Finset Int)
    (hgraph : ∀ n v, v ∈ graph n → v < n ∧ v ∈ T) :
    ∀ (fuel : Nat) (node : Int) (visited stack : List Int),
      (∀ s ∈ stack, node < s) →
      (T.filter (fun x => x < node)).card + 1 ≤ fuel →
      ∃ vis', dfsNode graph fuel visited stack node = .ok vis' := by
  intro fuel
  induction fuel with
  | zero => intro node visited stack _ hf; omega
  | succ f ihf =>
      intro node visited stack hstack hf
      have hnstack : node ∉ stack := fun hmem => lt_irrefl node (hstack node hmem)
      rw [dfsNode]
      rw [if_neg hnstack]
      by_cases hvis : node ∈ visited
      · rw [if_pos hvis]
        exact ⟨visited, rfl⟩
      · rw [if_neg hvis]
        have hpar : ∀ (parents : List Int),
            (∀ p ∈ parents, p ∈ graph node) → ∀ vis,
            ∃ vis', dfsParents graph f vis (node :: stack) parents = .ok vis' := by
          intro parents
          induction parents with
          | nil => intro _ vis; exact ⟨vis, by rw [dfsParents]⟩
          | cons p ps ihp =>
              intro hmem vis
              obtain ⟨hplt, hpT⟩ := hgraph node p (hmem p (by simp))
              have hstk' : ∀ s ∈ node :: stack, p < s := by
                intro s hs
                rcases List.mem_cons.1 hs with hs' | hs'
                · exact hs' ▸ hplt
                · exact lt_trans hplt (hstack s hs')
              have hpmem : p ∈ T.filter (fun x => x < node) :=
                Finset.mem_filter.2 ⟨hpT, hplt⟩
              have hcard : (T.filter (fun x => x < p)).card + 1 ≤ f := by
                have hsub : T.filter (fun x => x < p) ⊆
                    (T.filter (fun x => x < node)).erase p := by
                  intro x hx
                  obtain ⟨hxT, hxp⟩ := Finset.mem_filter.1 hx
                  refine Finset.mem_erase.2 ⟨?_, Finset.mem_filter.2
                    ⟨hxT, lt_trans hxp hplt⟩⟩
                  omega
                have h1 := Finset.card_le_card hsub
                have h2 := Finset.card_erase_of_mem hpmem
                have h3 : 1 ≤ (T.filter (fun x => x < node)).card :=
                  Finset.card_pos.2 ⟨p, hpmem⟩
                omega
              obtain ⟨vis1, hvis1⟩ := ihf p vis (node :: stack) hstk' hcard
              obtain ⟨vis2, hvis2⟩ :=
                ihp (fun q hq => hmem q (List.mem_cons_of_mem _ hq)) vis1
              refine ⟨vis2, ?_⟩
              rw [dfsParents, hvis1]
              exact hvis2
        obtain ⟨vis', hv⟩ := hpar (graph node) (fun p hp => hp) visited
        refine ⟨node :: vis', ?_⟩
        rw [← dfsParents_eq_foldlM, hv]

/-- C10: for every plan that passes the dependency check (every
`from_step` names an existing step and is strictly less than the
owning step id), the DFS of `_validate_no_cycles` never meets a node
on its walk stack: the whole cycle check succeeds, so the "Cyclic
dependency detected" branch is unreachable for such plans. -/
theorem validated_deps_no_cycle_branch (plan : PlannerOutput)
    (h : validate_dependencies plan = .ok ()) :
    validate_no_cycles plan = .ok () := by
  have hgraph : ∀ n v, v ∈ planGraph plan.steps n →
      v < n ∧ v ∈ (plan.steps.map (·.step_id)).toFinset := by
    intro n v hv
    obtain ⟨s, hs, hsid, d, hd, hdv⟩ := planGraph_mem plan.steps n v hv
    obtain ⟨hmem, hlt⟩ := validate_dependencies_ok plan h s hs d hd
    constructor
    · omega
    · rw [List.mem_toFinset]
      exact hdv ▸ hmem
  have hcard : ∀ r : Int,
      (((plan.steps.map (·.step_id)).toFinset.filter (fun x => x < r)).card + 1 ≤
        plan.steps.length + 1) := by
    intro r
    have h1 := Finset.card_filter_le (plan.steps.map (·.step_id)).toFinset
      (fun x => x < r)
    have h2 := (plan.steps.map (·.step_id)).toFinset_card_le
    have h3 : (plan.steps.map (·.step_id)).length = plan.steps.length :=
      List.length_map _ _
    omega
  have hgo : ∀ (roots visited : List Int),
      validate_no_cycles.go plan roots visited = .ok () := by
    intro roots
    induction roots with
    | nil => intro visited; rfl
    | cons r rest ih =>
        intro visited
        obtain ⟨vis', hv⟩ := dfsNode_ok (planGraph plan.steps)
          (plan.steps.map (·.step_id)).toFinset hgraph
          (plan.steps.length + 1) r visited [] (by simp) (hcard r)
        rw [validate_no_cycles.go, hv]
        exact ih vis'
  exact hgo _ _

/-! ## Claim theorems -/

/-- C6: `classify_failure` is a pure function of the error message:
the four concrete classifications hold, the three keyword sets are
tested case-insensitively by substring in the priority order
TRANSIENT, STRUCTURAL, TERMINAL, and anything matching no set
(including the empty message) defaults to STRUCTURAL. -/
theorem classify_failure_spec :
    (∀ e t₁ t₂, classify_failure e t₁ = classify_failure e t₂) ∧
    classify_failure "Connection timeout" = .transient ∧
    classify_failure "Input should be a valid integer" = .structural ∧
    classify_failure "Permission denied" = .terminal ∧
    classify_failure "" = .structural ∧
    (∀ e tn, e ≠ "" → matchesAny transient_indicators e = true →
      classify_failure e tn = .transient) ∧
    (∀ e tn, e ≠ "" → matchesAny transient_indicators e = false →
      matchesAny structural_indicators e = true →
      classify_failure e tn = .structural) ∧
    (∀ e tn, e ≠ "" → matchesAny transient_indicators e = false →
      matchesAny structural_indicators e = false →
      matchesAny terminal_indicators e = true →
      classify_failure e tn = .terminal) ∧
    (∀ e tn, matchesAny transient_indicators e = false →
      matchesAny structural_indicators e = false →
      matchesAny terminal_indicators e = false →
      classify_failure e tn = .structural) := by
  refine ⟨fun e t₁ t₂ => rfl, rfl, rfl, rfl, rfl, ?_, ?_, ?_, ?_⟩
  · intro e tn hne ht
    simp [classify_failure, hne, ht]
  · intro e tn hne ht hs
    simp [classify_failure, hne, ht, hs]
  · intro e tn hne ht hs hterm
    simp [classify_failure, hne, ht, hs, hterm]
  · intro e tn ht hs hterm
    by_cases hne : e = ""
    · simp [classify_failure, hne]
    · simp [classify_failure, hne, ht, hs, hterm]

/-- C6 witness: an unclassifiable message is STRUCTURAL, via the
default branch of the classifier specification. -/
theorem classify_failure_spec_witness :
    classify_failure "gremlins ate the plan" = .structural :=
  classify_failure_spec.2.2.2.2.2.2.2.2 "gremlins ate the plan" none
    (by decide) (by decide) (by decide)

/-- C7 counterexample: storing twice under step id 1 does not fail; it
replaces the first stored response (success `true`) with the second
(success `false`). -/
theorem store_overwrites_counterexample :
    (((DependencyState.empty.store 1 respOk).store 1 respTimeout).get_step_output 1).map
        (fun r => (r.success, r.error)) =
      some (false, some "Connection timeout") ∧
    respOk.success = true := by
  exact ⟨rfl, rfl⟩

/-- C7 amended: `DependencyState.store` never fails; a second store
with the same step id silently overwrites the first value (last write
wins), leaving every other key unchanged. -/
theorem store_overwrites (s : DependencyState) (id : Int) (o : ToolResponse) :
    (s.store id o).get_step_output id = some o ∧
    ∀ k, k ≠ id → (s.store id o).get_step_output k = s.get_step_output k := by
  constructor
  · exact storeEntry_find_self s.state id o
  · intro k hk
    exact storeEntry_find_other s.state id k o hk

/-- C4: an impossible plan short-circuits: the executor returns the
skipped result with no step results and zero executed steps, performs
no tool invocation, and leaves the dependency state untouched, for
every tool oracle. -/
theorem impossible_plan_skipped
    (runTool : String → List (String × JVal) → ToolResponse)
    (plan : PlannerOutput) (h : plan.plan_status = "impossible") :
    execute_plan_full runTool plan =
      (create_skipped_result, DependencyState.empty, []) ∧
    (execute_plan runTool plan).execution_status = "skipped" ∧
    (execute_plan runTool plan).executed_steps = 0 ∧
    (execute_plan runTool plan).step_results = [] := by
  refine ⟨?_, ?_, ?_, ?_⟩ <;>
    simp [execute_plan, execute_plan_full, h, create_skipped_result]

/-- C4 witness: the concrete impossible plan is skipped with no tool
call. -/
theorem impossible_plan_skipped_witness :
    execute_plan_full failTool impossiblePlan =
      (create_skipped_result, DependencyState.empty, []) ∧
    (execute_plan failTool impossiblePlan).execution_status = "skipped" ∧
    (execute_plan failTool impossiblePlan).executed_steps = 0 ∧
    (execute_plan failTool impossiblePlan).step_results = [] :=
  impossible_plan_skipped failTool impossiblePlan rfl

/-- C2 counterexample: on the one-step plan whose tool fails, the
returned result is a failure at step 1 whose record is in
`step_results`, yet the dependency state does not contain step 1's
output when the failed result is returned. -/
theorem failed_step_not_stored_counterexample :
    (execute_plan failTool samplePlan1).execution_status = "failed" ∧
    (execute_plan failTool samplePlan1).metadata.failed_step_id = some 1 ∧
    ((execute_plan failTool samplePlan1).step_results.map
        (fun r => (r.step_id, r.success))) = [(1, false)] ∧
    ((execute_plan_full failTool samplePlan1).2.1).has_step 1 = false := by
  exact ⟨rfl, rfl, rfl, rfl⟩

/-- C2 amended: the executor stores a step's tool result in the
dependency state only when the step succeeds: after any run of the
step loop, a step id is present in the final state exactly when it was
present before or belongs to a successful step record; a failed step's
output is never stored before the failed result is returned. -/
theorem state_stores_only_successes
    (runTool : String → List (String × JVal) → ToolResponse)
    (steps : List Step) (s : DependencyState) (k : Int) :
    ((executeSteps runTool steps s).2.1).has_step k =
      (s.has_step k ||
        ((executeSteps runTool steps s).1.filter (fun r => r.success)).any
          (fun r => r.step_id == k)) := by
  induction steps generalizing s with
  | nil => simp [executeSteps]
  | cons step rest ih =>
      rcases h : execute_single_step runTool s step with e | rc
      · simp [executeSteps, h]
      · obtain ⟨record, call⟩ := rc
        rcases hs : record.success with _ | _
        · simp [executeSteps, h, hs]
        · have hid := (execute_single_step_ok runTool s step record call h).1
          simp only [executeSteps, h, hs, if_true]
          rw [ih]
          rw [store_has_step]
          simp only [List.filter_cons, hs, List.any_cons, hid]
          by_cases hk : k = step.step_id
          · simp [hk, hid]
          · have hbeq : (record.step_id == k) = false := by
              rw [hid]
              simp [Ne.symm hk]
            simp [hk, hbeq]

/-- C5 counterexample: the claim "every cyclic plan fails with
category DEPENDENCY_ERROR" is false as stated: a plan whose dependency
graph has the cycle 2 ↔ 3 but whose first step has a blank instruction
fails validation with category SCHEMA_ERROR instead (earlier checks
run first). -/
theorem cyclic_plan_category_counterexample :
    HasCycle cyclicBlankPlan ∧
    validate_plan textRegistry cyclicBlankPlan "please loop" =
      .error (failStep "SCHEMA_ERROR" "instruction must be a non-empty string"
        blankStep1) ∧
    ("SCHEMA_ERROR" : String) ≠ "DEPENDENCY_ERROR" := by
  refine ⟨⟨2, ?_⟩, rfl, by decide⟩
  have e23 : planEdge cyclicBlankPlan 2 3 :=
    ⟨cycStep2, List.Mem.tail _ (List.Mem.head _), rfl,
      ⟨3, "data.value", "text"⟩, List.Mem.head _, rfl⟩
  have e32 : planEdge cyclicBlankPlan 3 2 :=
    ⟨cycStep3, List.Mem.tail _ (List.Mem.tail _ (List.Mem.head _)), rfl,
      ⟨2, "data.value", "text"⟩, List.Mem.head _, rfl⟩
  exact Relation.TransGen.head e23 (Relation.TransGen.single e32)

/-- C5 amended: a plan whose dependency graph contains a cycle never
passes `validate_plan` (so it never reaches the Executor), and
whenever such a plan passes the schema, fail-reason and tool checks,
the validation failure has category DEPENDENCY_ERROR. -/
theorem cyclic_plan_never_validates (reg : Registry) (plan : PlannerOutput)
    (q : String) (hcyc : HasCycle plan) :
    (∃ e, validate_plan reg plan q = .error e) ∧
    (validate_schema plan = .ok () → validate_fail_reason plan = .ok () →
      validate_tools reg plan = .ok () →
      ∃ e, validate_plan reg plan q = .error e ∧
        e.category = "DEPENDENCY_ERROR") := by
  have hdep : validate_dependencies plan ≠ .ok () := fun hok =>
    validated_deps_acyclic plan hok hcyc
  constructor
  · cases hv : validate_plan reg plan q with
    | error e => exact ⟨e, rfl⟩
    | ok p =>
        exfalso
        unfold validate_plan at hv
        obtain ⟨a1, h1, hv⟩ := except_bind_ok hv
        obtain ⟨a2, h2, hv⟩ := except_bind_ok hv
        obtain ⟨a3, h3, hv⟩ := except_bind_ok hv
        obtain ⟨a4, h4, hv⟩ := except_bind_ok hv
        cases a4
        exact hdep h4
  · intro h1 h2 h3
    cases hd : validate_dependencies plan with
    | ok u => cases u; exact absurd hd hdep
    | error e4 =>
        refine ⟨e4, ?_, validate_dependencies_error plan e4 hd⟩
        simp [validate_plan, h1, h2, h3, hd, Bind.bind, Except.bind]

/-- C5 witness: the clean cyclic plan passes the earlier checks, and
the amended theorem yields its DEPENDENCY_ERROR failure. -/
theorem cyclic_plan_never_validates_witness :
    (∃ e, validate_plan textRegistry cyclicCleanPlan "please loop" = .error e) ∧
    (validate_schema cyclicCleanPlan = .ok () →
      validate_fail_reason cyclicCleanPlan = .ok () →
      validate_tools textRegistry cyclicCleanPlan = .ok () →
      ∃ e, validate_plan textRegistry cyclicCleanPlan "please loop" = .error e ∧
        e.category = "DEPENDENCY_ERROR") :=
  cyclic_plan_never_validates textRegistry cyclicCleanPlan "please loop"
    ⟨2, Relation.TransGen.head
      ⟨cycStep2, List.Mem.tail _ (List.Mem.head _), rfl,
        ⟨3, "data.value", "text"⟩, List.Mem.head _, rfl⟩
      (Relation.TransGen.single
        ⟨cycStep3, List.Mem.tail _ (List.Mem.tail _ (List.Mem.head _)), rfl,
          ⟨2, "data.value", "text"⟩, List.Mem.head _, rfl⟩)⟩

/-- C10 witness: a concrete plan with a backward dependency passes the
dependency check, and the cycle check then succeeds. -/
theorem validated_deps_no_cycle_branch_witness :
    validate_dependencies chainPlan = .ok () ∧
    validate_no_cycles chainPlan = .ok () :=
  ⟨rfl, validated_deps_no_cycle_branch chainPlan rfl⟩

/-- C8 (code bug): when the quota is exhausted at the replanning
check, the raised `QuotaExceeded` is swallowed by the loop's generic
exception handler: the run returns the ordinary failed execution
result after one invocation, and the `replans` budget slot has already
been consumed — there is no distinct quota outcome. -/
theorem quota_swallowed_at_replan :
    (run_with_recovery configLimits quotaOracles 10 samplePlan1).map
        (fun out => (out.1.execution_status, out.1.metadata.error,
                     out.2.2.replans, out.2.2.invocations)) =
      some ("failed", some "Input should be a valid integer", 1, 1) := by
  rfl

/-! ### One-step equations of the recovery loop

Each lemma describes one branch of a single unfolding of the
`while True` loop, with the per-branch conditions as hypotheses and
the successor state written out explicitly. -/

theorem run_aux_completed (cfg : RecoveryConfig) (o : RecoveryOracles)
    (f : Nat) (st : RecoveryState) (r : ExecutionResult)
    (hr : o.execOut st.invocations = r)
    (hc : r.execution_status = "completed") :
    run_with_recovery_aux cfg o (f + 1) st =
      some (r, st.plan,
        { st with invocations := st.invocations + 1 }) := by
  rw [run_with_recovery_aux, hr]
  simp [hc]

theorem run_aux_transient_continue (cfg : RecoveryConfig) (o : RecoveryOracles)
    (f : Nat) (st : RecoveryState) (r : ExecutionResult)
    (hr : o.execOut st.invocations = r)
    (hfc : ¬ r.execution_status = "completed")
    (hcl : classify_failure (r.metadata.error.getD "")
      (get_tool_name st.plan r.metadata.failed_step_id) = .transient)
    (hle : st.retries r.metadata.failed_step_id + 1 ≤ cfg.max_retries_per_step) :
    run_with_recovery_aux cfg o (f + 1) st =
      run_with_recovery_aux cfg o f
        { plan := st.plan,
          retries := Function.update st.retries r.metadata.failed_step_id
            (st.retries r.metadata.failed_step_id + 1),
          replans := st.replans,
          invocations := st.invocations + 1,
          retryExecs := Function.update st.retryExecs
            r.metadata.failed_step_id
            (st.retryExecs r.metadata.failed_step_id + 1) } := by
  rw [run_with_recovery_aux, hr]
  simp [hfc, hcl, hle]

theorem run_aux_transient_stop (cfg : RecoveryConfig) (o : RecoveryOracles)
    (f : Nat) (st : RecoveryState) (r : ExecutionResult)
    (hr : o.execOut st.invocations = r)
    (hfc : ¬ r.execution_status = "completed")
    (hcl : classify_failure (r.metadata.error.getD "")
      (get_tool_name st.plan r.metadata.failed_step_id) = .transient)
    (hgt : ¬ st.retries r.metadata.failed_step_id + 1 ≤
      cfg.max_retries_per_step) :
    run_with_recovery_aux cfg o (f + 1) st =
      some (r, st.plan,
        { plan := st.plan,
          retries := Function.update st.retries r.metadata.failed_step_id
            (st.retries r.metadata.failed_step_id + 1),
          replans := st.replans,
          invocations := st.invocations + 1,
          retryExecs := st.retryExecs }) := by
  rw [run_with_recovery_aux, hr]
  simp [hfc, hcl, hgt]

theorem run_aux_structural_quota (cfg : RecoveryConfig) (o : RecoveryOracles)
    (f : Nat) (st : RecoveryState) (r : ExecutionResult)
    (hr : o.execOut st.invocations = r)
    (hfc : ¬ r.execution_status = "completed")
    (hcl : classify_failure (r.metadata.error.getD "")
      (get_tool_name st.plan r.metadata.failed_step_id) = .structural)
    (hrep : st.replans < cfg.max_replans_per_run)
    (hq : o.canCall st.replans = false) :
    run_with_recovery_aux cfg o (f + 1) st =
      some (r, st.plan,
        { st with replans := st.replans + 1,
                  invocations := st.invocations + 1 }) := by
  rw [run_with_recovery_aux, hr]
  simp [hfc, hcl, hrep, hq]

theorem run_aux_structural_replan_fail (cfg : RecoveryConfig)
    (o : RecoveryOracles) (f : Nat) (st : RecoveryState) (r : ExecutionResult)
    (hr : o.execOut st.invocations = r)
    (hfc : ¬ r.execution_status = "completed")
    (hcl : classify_failure (r.metadata.error.getD "")
      (get_tool_name st.plan r.metadata.failed_step_id) = .structural)
    (hrep : st.replans < cfg.max_replans_per_run)
    (hq : o.canCall st.replans = true)
    (hrp : o.replanOut st.replans = none) :
    run_with_recovery_aux cfg o (f + 1) st =
      some (r, st.plan,
        { st with replans := st.replans + 1,
                  invocations := st.invocations + 1 }) := by
  rw [run_with_recovery_aux, hr]
  simp [hfc, hcl, hrep, hq, hrp]

theorem run_aux_structural_continue (cfg : RecoveryConfig)
    (o : RecoveryOracles) (f : Nat) (st : RecoveryState) (r : ExecutionResult)
    (p : PlannerOutput)
    (hr : o.execOut st.invocations = r)
    (hfc : ¬ r.execution_status = "completed")
    (hcl : classify_failure (r.metadata.error.getD "")
      (get_tool_name st.plan r.metadata.failed_step_id) = .structural)
    (hrep : st.replans < cfg.max_replans_per_run)
    (hq : o.canCall st.replans = true)
    (hrp : o.replanOut st.replans = some p) :
    run_with_recovery_aux cfg o (f + 1) st =
      run_with_recovery_aux cfg o f
        { st with plan := p,
                  replans := st.replans + 1,
                  invocations := st.invocations + 1 } := by
  rw [run_with_recovery_aux, hr]
  simp [hfc, hcl, hrep, hq, hrp]

theorem run_aux_structural_exhausted (cfg : RecoveryConfig)
    (o : RecoveryOracles) (f : Nat) (st : RecoveryState) (r : ExecutionResult)
    (hr : o.execOut st.invocations = r)
    (hfc : ¬ r.execution_status = "completed")
    (hcl : classify_failure (r.metadata.error.getD "")
      (get_tool_name st.plan r.metadata.failed_step_id) = .structural)
    (hrep : ¬ st.replans < cfg.max_replans_per_run) :
    run_with_recovery_aux cfg o (f + 1) st =
      some (r, st.plan, { st with invocations := st.invocations + 1 }) := by
  rw [run_with_recovery_aux, hr]
  simp [hfc, hcl, hrep]

theorem run_aux_terminal (cfg : RecoveryConfig) (o : RecoveryOracles)
    (f : Nat) (st : RecoveryState) (r : ExecutionResult)
    (hr : o.execOut st.invocations = r)
    (hfc : ¬ r.execution_status = "completed")
    (hcl : classify_failure (r.metadata.error.getD "")
      (get_tool_name st.plan r.metadata.failed_step_id) = .terminal) :
    run_with_recovery_aux cfg o (f + 1) st =
      some (r, st.plan, { st with invocations := st.invocations + 1 }) := by
  rw [run_with_recovery_aux, hr]
  simp [hfc, hcl]

theorem loop_transient_aux (cfg : RecoveryConfig) (o : RecoveryOracles)
    (plan : PlannerOutput) (r : ExecutionResult)
    (hconst : ∀ n, o.execOut n = r)
    (hfail : ¬ r.execution_status = "completed")
    (htrans : classify_failure (r.metadata.error.getD "")
      (get_tool_name plan r.metadata.failed_step_id) = .transient) :
    ∀ (fuel : Nat) (st : RecoveryState) (c : Nat),
      st.plan = plan →
      st.retries r.metadata.failed_step_id = c →
      c ≤ cfg.max_retries_per_step →
      cfg.max_retries_per_step - c + 1 ≤ fuel →
      ∃ st', run_with_recovery_aux cfg o fuel st = some (r, plan, st') ∧
        st'.invocations = st.invocations + (cfg.max_retries_per_step - c + 1) := by
  intro fuel
  induction fuel with
  | zero => intro st c _ _ _ hf; omega
  | succ f ih =>
      intro st c hplan hret hc hf
      have hcl : classify_failure (r.metadata.error.getD "")
          (get_tool_name st.plan r.metadata.failed_step_id) = .transient := by
        rw [hplan]; exact htrans
      by_cases hlt : c < cfg.max_retries_per_step
      · rw [run_aux_transient_continue cfg o f st r (hconst _) hfail hcl
          (by omega)]
        obtain ⟨st', hrun, hinv⟩ := ih
          { plan := st.plan,
            retries := Function.update st.retries r.metadata.failed_step_id
              (st.retries r.metadata.failed_step_id + 1),
            replans := st.replans,
            invocations := st.invocations + 1,
            retryExecs := Function.update st.retryExecs
              r.metadata.failed_step_id
              (st.retryExecs r.metadata.failed_step_id + 1) }
          (c + 1) hplan (by simp only [Function.update_same, hret]) (by omega)
          (by omega)
        refine ⟨st', hrun, ?_⟩
        simp only at hinv
        omega
      · rw [run_aux_transient_stop cfg o f st r (hconst _) hfail hcl (by omega),
          hplan]
        refine ⟨_, rfl, ?_⟩
        simp only
        omega

/-- C3: with the deployed limits (`max_retries_per_step = 2`), a run
whose every execution fails with the same TRANSIENT-classified result
performs exactly 3 Executor invocations (1 initial + 2 retries) and
terminates returning that failed result; in general such a run
performs exactly `1 + max_retries_per_step` invocations. -/
theorem transient_retry_bound (cfg : RecoveryConfig) (o : RecoveryOracles)
    (plan : PlannerOutput) (r : ExecutionResult)
    (hconst : ∀ n, o.execOut n = r)
    (hfail : r.execution_status = "failed")
    (htrans : classify_failure (r.metadata.error.getD "")
      (get_tool_name plan r.metadata.failed_step_id) = .transient)
    (fuel : Nat) (hfuel : cfg.max_retries_per_step + 1 ≤ fuel) :
    ∃ st', run_with_recovery cfg o fuel plan = some (r, plan, st') ∧
      st'.invocations = 1 + cfg.max_retries_per_step ∧
      r.execution_status = "failed" ∧
      (cfg = configLimits → st'.invocations = 3) := by
  have hfail' : ¬ r.execution_status = "completed" := by
    rw [hfail]; decide
  obtain ⟨st', h1, h2⟩ := loop_transient_aux cfg o plan r hconst hfail' htrans
    fuel (initialRecoveryState plan) 0 rfl rfl (Nat.zero_le _) (by omega)
  refine ⟨st', h1, ?_, hfail, ?_⟩
  · simp only [initialRecoveryState] at h2
    omega
  · intro hcfg
    subst hcfg
    simp only [initialRecoveryState] at h2
    simpa [configLimits, MAX_RETRIES_PER_STEP] using h2

/-- C3 witness: the concrete constantly transient-failing run stops
after exactly 3 invocations with the failed result. -/
theorem transient_retry_bound_witness :
    ∃ st', run_with_recovery configLimits transientOracles 5 samplePlan1 =
        some (execute_plan failTool samplePlan1, samplePlan1, st') ∧
      st'.invocations = 1 + configLimits.max_retries_per_step ∧
      (execute_plan failTool samplePlan1).execution_status = "failed" ∧
      (configLimits = configLimits → st'.invocations = 3) :=
  transient_retry_bound configLimits transientOracles samplePlan1
    (execute_plan failTool samplePlan1) (fun _ => rfl) rfl rfl 5 (by decide)

theorem loop_retryExecs_bounded (cfg : RecoveryConfig) (o : RecoveryOracles) :
    ∀ (fuel : Nat) (st : RecoveryState),
      (∀ k, st.retryExecs k ≤ st.retries k ∧
        st.retries k ≤ cfg.max_retries_per_step) →
      ∀ res plan' st',
        run_with_recovery_aux cfg o fuel st = some (res, plan', st') →
        ∀ k, st'.retryExecs k ≤ cfg.max_retries_per_step := by
  intro fuel
  induction fuel with
  | zero =>
      intro st _ res plan' st' h
      rw [run_with_recovery_aux] at h
      cases h
  | succ f ih =>
      intro st hinv res plan' st' h
      have hkeep : ∀ k, st.retryExecs k ≤ cfg.max_retries_per_step :=
        fun k => le_trans (hinv k).1 (hinv k).2
      by_cases hc : (o.execOut st.invocations).execution_status = "completed"
      · rw [run_aux_completed cfg o f st _ rfl hc] at h
        simp only [Option.some.injEq, Prod.mk.injEq] at h
        obtain ⟨-, -, h3⟩ := h
        subst h3
        exact hkeep
      · rcases hcl : classify_failure
            ((o.execOut st.invocations).metadata.error.getD "")
            (get_tool_name st.plan
              (o.execOut st.invocations).metadata.failed_step_id) with _ | _ | _
        · by_cases hle : st.retries
              (o.execOut st.invocations).metadata.failed_step_id + 1 ≤
              cfg.max_retries_per_step
          · rw [run_aux_transient_continue cfg o f st _ rfl hc hcl hle] at h
            refine ih _ ?_ res plan' st' h
            intro k
            by_cases hk : k = (o.execOut st.invocations).metadata.failed_step_id
            · subst hk
              simp only [Function.update_same]
              exact ⟨Nat.succ_le_succ (hinv _).1, hle⟩
            · simp only [Function.update_noteq hk]
              exact hinv k
          · rw [run_aux_transient_stop cfg o f st _ rfl hc hcl hle] at h
            simp only [Option.some.injEq, Prod.mk.injEq] at h
            obtain ⟨-, -, h3⟩ := h
            subst h3
            exact hkeep
        · by_cases hrep : st.replans < cfg.max_replans_per_run
          · rcases hq : o.canCall st.replans with _ | _
            · rw [run_aux_structural_quota cfg o f st _ rfl hc hcl hrep hq] at h
              simp only [Option.some.injEq, Prod.mk.injEq] at h
              obtain ⟨-, -, h3⟩ := h
              subst h3
              exact hkeep
            · rcases hrp : o.replanOut st.replans with _ | p
              · rw [run_aux_structural_replan_fail cfg o f st _ rfl hc hcl
                  hrep hq hrp] at h
                simp only [Option.some.injEq, Prod.mk.injEq] at h
                obtain ⟨-, -, h3⟩ := h
                subst h3
                exact hkeep
              · rw [run_aux_structural_continue cfg o f st _ p rfl hc hcl
                  hrep hq hrp] at h
                exact ih
                  { st with plan := p, replans := st.replans + 1,
                            invocations := st.invocations + 1 }
                  (fun k => hinv k) res plan' st' h
          · rw [run_aux_structural_exhausted cfg o f st _ rfl hc hcl hrep] at h
            simp only [Option.some.injEq, Prod.mk.injEq] at h
            obtain ⟨-, -, h3⟩ := h
            subst h3
            exact hkeep
        · rw [run_aux_terminal cfg o f st _ rfl hc hcl] at h
          simp only [Option.some.injEq, Prod.mk.injEq] at h
          obtain ⟨-, -, h3⟩ := h
          subst h3
          exact hkeep

/-- C9: the retries dict persists across replans (it is never reset
when the plan is replaced), and since each transient retry of a key
increments its counter and re-runs only while the counter stays within
the limit, a given failed-step key triggers at most
`max_retries_per_step` retry re-executions over the whole run — for
every oracle trace, including ones that replan. -/
theorem retry_budget_per_step (cfg : RecoveryConfig) (o : RecoveryOracles)
    (fuel : Nat) (plan : PlannerOutput) (res : ExecutionResult)
    (plan' : PlannerOutput) (st' : RecoveryState)
    (h : run_with_recovery cfg o fuel plan = some (res, plan', st'))
    (k : Option Int) :
    st'.retryExecs k ≤ cfg.max_retries_per_step :=
  loop_retryExecs_bounded cfg o fuel (initialRecoveryState plan)
    (fun _ => ⟨Nat.le_refl 0, Nat.zero_le _⟩) res plan' st' h k

/-- C9 witness: on the concrete trace that retries step 1 twice and
step 2 twice before exhausting step 2's budget, the retry re-execution
count of step 2 is within the limit. -/
theorem retry_budget_per_step_witness :
    ∃ res plan' st',
      run_with_recovery configLimits boundOracles 10 twoStepPlan =
        some (res, plan', st') ∧
      st'.retryExecs (some 2) ≤ configLimits.max_retries_per_step := by
  refine ⟨_, _, _, rfl, ?_⟩
  exact retry_budget_per_step configLimits boundOracles 10 twoStepPlan _ _ _
    rfl (some 2)

theorem sum_sub_update (K : Finset (Option Int)) (f : Option Int → Nat)
    (key : Option Int) (hkey : key ∈ K) (m : Nat) (hc : f key < m) :
    (∑ k ∈ K, (m - Function.update f key (f key + 1) k)) + 1 =
      ∑ k ∈ K, (m - f k) := by
  have hfun : (fun k => m - Function.update f key (f key + 1) k) =
      Function.update (fun k => m - f k) key (m - (f key + 1)) := by
    funext k
    by_cases hk : k = key
    · subst hk
      simp [Function.update_same]
    · simp [Function.update_noteq hk]
  rw [hfun, Finset.sum_update_of_mem hkey,
    ← Finset.add_sum_erase K (fun k => m - f k) hkey, Finset.erase_eq]
  omega

theorem loop_invocation_bound (cfg : RecoveryConfig) (o : RecoveryOracles)
    (K : Finset (Option Int))
    (hK : ∀ n, ¬ (o.execOut n).execution_status = "completed" →
      (o.execOut n).metadata.failed_step_id ∈ K) :
    ∀ (fuel : Nat) (st : RecoveryState),
      recoveryPotential cfg K st + 1 ≤ fuel →
      ∃ res plan' st',
        run_with_recovery_aux cfg o fuel st = some (res, plan', st') ∧
        st'.invocations ≤ st.invocations + recoveryPotential cfg K st + 1 := by
  intro fuel
  induction fuel with
  | zero => intro st hf; omega
  | succ f ih =>
      intro st hf
      by_cases hc : (o.execOut st.invocations).execution_status = "completed"
      · rw [run_aux_completed cfg o f st _ rfl hc]
        refine ⟨_, _, _, rfl, ?_⟩
        show st.invocations + 1 ≤ _
        omega
      · have hkey := hK st.invocations hc
        rcases hcl : classify_failure
            ((o.execOut st.invocations).metadata.error.getD "")
            (get_tool_name st.plan
              (o.execOut st.invocations).metadata.failed_step_id) with _ | _ | _
        · by_cases hle : st.retries
              (o.execOut st.invocations).metadata.failed_step_id + 1 ≤
              cfg.max_retries_per_step
          · rw [run_aux_transient_continue cfg o f st _ rfl hc hcl hle]
            set key := (o.execOut st.invocations).metadata.failed_step_id
              with hkeydef
            set st2 : RecoveryState :=
              { plan := st.plan,
                retries := Function.update st.retries key
                  (st.retries key + 1),
                replans := st.replans,
                invocations := st.invocations + 1,
                retryExecs := Function.update st.retryExecs key
                  (st.retryExecs key + 1) } with hst2
            have hPeq : recoveryPotential cfg K st2 + 1 =
                recoveryPotential cfg K st := by
              rw [hst2]
              unfold recoveryPotential
              simp only
              rw [Nat.add_assoc, sum_sub_update K st.retries key hkey
                cfg.max_retries_per_step (by omega)]
            have hinvoc : st2.invocations = st.invocations + 1 := by
              rw [hst2]
            obtain ⟨res, plan', st', hrun, hb⟩ := ih st2 (by omega)
            exact ⟨res, plan', st', hrun, by omega⟩
          · rw [run_aux_transient_stop cfg o f st _ rfl hc hcl hle]
            refine ⟨_, _, _, rfl, ?_⟩
            show st.invocations + 1 ≤ _
            omega
        · by_cases hrep : st.replans < cfg.max_replans_per_run
          · rcases hq : o.canCall st.replans with _ | _
            · rw [run_aux_structural_quota cfg o f st _ rfl hc hcl hrep hq]
              refine ⟨_, _, _, rfl, ?_⟩
              show st.invocations + 1 ≤ _
              omega
            · rcases hrp : o.replanOut st.replans with _ | p
              · rw [run_aux_structural_replan_fail cfg o f st _ rfl hc hcl
                  hrep hq hrp]
                refine ⟨_, _, _, rfl, ?_⟩
                show st.invocations + 1 ≤ _
                omega
              · rw [run_aux_structural_continue cfg o f st _ p rfl hc hcl
                  hrep hq hrp]
                set st2 : RecoveryState :=
                  { st with plan := p, replans := st.replans + 1,
                            invocations := st.invocations + 1 } with hst2
                have hPeq : recoveryPotential cfg K st2 + 1 =
                    recoveryPotential cfg K st := by
                  rw [hst2]
                  unfold recoveryPotential
                  simp only
                  omega
                have hinvoc : st2.invocations = st.invocations + 1 := by
                  rw [hst2]
                obtain ⟨res, plan', st', hrun, hb⟩ := ih st2 (by omega)
                exact ⟨res, plan', st', hrun, by omega⟩
          · rw [run_aux_structural_exhausted cfg o f st _ rfl hc hcl hrep]
            refine ⟨_, _, _, rfl, ?_⟩
            show st.invocations + 1 ≤ _
            omega
        · rw [run_aux_terminal cfg o f st _ rfl hc hcl]
          refine ⟨_, _, _, rfl, ?_⟩
          show st.invocations + 1 ≤ _
          omega

/-- C1 counterexample: the spec's worst-case bound
`max_retries_per_step × (max_replans_per_run + 1)` (= 4 with the
deployed limits) is exceeded: on the validated two-step plan, a
realizable sequence of tool outcomes (step 1 transient-fails twice,
then step 2 transient-fails three times) drives `run_with_recovery`
through 5 Executor invocations. -/
theorem invocation_bound_counterexample :
    validate_plan sampleRegistry twoStepPlan "hello please" =
      .ok twoStepPlan ∧
    (run_with_recovery configLimits boundOracles 10 twoStepPlan).map
        (fun out => out.2.2.invocations) = some 5 ∧
    MAX_RETRIES_PER_STEP * (MAX_REPLANS_PER_RUN + 1) = 4 ∧ 4 < 5 := by
  exact ⟨rfl, rfl, rfl, by decide⟩

/-- C1 amended: the loop always terminates, and the correct worst-case
bound on Executor invocations is
`1 + max_replans_per_run + |K| × max_retries_per_step`, where `K` is
the set of failed-step keys the executor outcomes can carry (for real
runs: the step ids of the current plans plus the missing-id key) — the
retries budget is per failed step, not shared, so the spec's formula
`max_retries_per_step × (max_replans_per_run + 1)` is not an upper
bound. -/
theorem recovery_invocation_bound (cfg : RecoveryConfig) (o : RecoveryOracles)
    (K : Finset (Option Int)) (plan : PlannerOutput)
    (hK : ∀ n, ¬ (o.execOut n).execution_status = "completed" →
      (o.execOut n).metadata.failed_step_id ∈ K)
    (fuel : Nat)
    (hfuel : cfg.max_replans_per_run + K.card * cfg.max_retries_per_step + 1 ≤
      fuel) :
    ∃ res plan' st',
      run_with_recovery cfg o fuel plan = some (res, plan', st') ∧
      st'.invocations ≤
        1 + cfg.max_replans_per_run + K.card * cfg.max_retries_per_step := by
  have hP : recoveryPotential cfg K (initialRecoveryState plan) =
      cfg.max_replans_per_run + K.card * cfg.max_retries_per_step := by
    unfold recoveryPotential initialRecoveryState
    simp [Finset.sum_const, smul_eq_mul]
  obtain ⟨res, plan', st', hrun, hb⟩ := loop_invocation_bound cfg o K hK fuel
    (initialRecoveryState plan) (by omega)
  refine ⟨res, plan', st', hrun, ?_⟩
  have h0 : (initialRecoveryState plan).invocations = 0 := rfl
  omega

/-- C1 witness: on the concrete five-invocation trace, with
`K = {step 1, step 2}` the amended bound `1 + 1 + 2·2 = 6` holds. -/
theorem recovery_invocation_bound_witness :
    ∃ res plan' st',
      run_with_recovery configLimits boundOracles 10 twoStepPlan =
        some (res, plan', st') ∧
      st'.invocations ≤
        1 + configLimits.max_replans_per_run +
          ({some 1, some 2} : Finset (Option Int)).card *
            configLimits.max_retries_per_step :=
  recovery_invocation_bound configLimits boundOracles {some 1, some 2}
    twoStepPlan
    (by
      intro n _
      by_cases h2 : n < 2
      · simp only [boundOracles, if_pos h2]
        decide
      · simp only [boundOracles, if_neg h2]
        decide)
    10 (by decide)

end AgentEngine
